import Mathlib

/-!
Shallow embedding of the resource store in
`pkg/resourcewatcher/k8s_store.go` of kubectl-fzf.

The store keeps an in-memory map from a string identity to a resource
record and mirrors it to disk: additions are appended to the currently
open file, while deletions/updates trigger a throttled full rewrite that
writes a scratch file and renames it over the destination.

The filesystem is modelled explicitly: files are inodes (lists of text
lines) and the two paths the store uses (the scratch path `tempFileName`
and the destination path `destFile`) are optional inode indices.  A file
handle is an inode index; `os.Rename` moves a path binding, not the
inode, so a handle held across a rename keeps writing to the renamed
file, exactly as in the Go code.  I/O failures are injected through
explicit outcome records so that error paths can be analysed.
-/

set_option autoImplicit false

namespace KubectlFzf

/-- A raw object delivered by the informer: namespace, name and an
opaque payload (standing for every other field of the k8s object). -/
structure RawObj (P : Type) where
  ns : String
  name : String
  payload : P
deriving DecidableEq

/-- `resourceKey` from k8s_store.go: `fmt.Sprintf("%s_%s", namespace, name)`. -/
def resourceKey {P : Type} (o : RawObj P) : String :=
  o.ns ++ "_" ++ o.name

/-- The per-resource-kind adapter (`K8sResource` capability set):
build from a raw object, render to one line (`ToString`), and the
change predicate (`HasChanged`); the previous entry may be absent,
matching the nil a Go map lookup yields for a missing key. -/
structure Adapter (P R : Type) where
  fromRaw : RawObj P → R
  render : R → String
  hasChanged : R → Option R → Bool

/-- The filesystem visible to one store: inode contents (as lists of
lines), and the inodes currently bound to the scratch path and to the
destination path (`none` when the path does not exist). -/
structure FS where
  inodes : List (List String)
  temp : Option Nat
  dest : Option Nat
deriving DecidableEq

/-- Content of the destination file, as a list of lines, if it exists. -/
def destContent (fs : FS) : Option (List String) :=
  match fs.dest with
  | none => none
  | some i => fs.inodes[i]?

/-- Append one line to the file behind handle `h`. -/
def writeLine (fs : FS) (h : Nat) (line : String) : FS :=
  { fs with inodes := fs.inodes.set h (fs.inodes.getD h [] ++ [line]) }

/-- `K8sStore`: the in-memory cache plus bookkeeping, mirroring the Go
struct field by field (`data`, `header`, `currentFile` with its open
state, `lastFullDump`, `TimeBetweenFullDump`, `firstWrite`).  The map is
an association list; Go map iteration order is arbitrary, and no claim
depends on the order chosen here. -/
structure K8sStore (R : Type) where
  data : List (String × R)
  header : String
  currentFile : Nat
  currentOpen : Bool
  lastFullDump : Int
  timeBetweenFullDump : Int
  firstWrite : Bool
deriving DecidableEq

/-- Association-list lookup, modelling `k.data[key]`. -/
def alLookup {R : Type} (k : String) : List (String × R) → Option R
  | [] => none
  | (k2, v) :: t => if k = k2 then some v else alLookup k t

/-- Association-list insert/overwrite, modelling `k.data[key] = v`. -/
def alInsert {R : Type} (k : String) (v : R) : List (String × R) → List (String × R)
  | [] => [(k, v)]
  | (k2, v2) :: t => if k = k2 then (k, v) :: t else (k2, v2) :: alInsert k v t

/-- Association-list removal, modelling `delete(k.data, key)`. -/
def alErase {R : Type} (k : String) : List (String × R) → List (String × R)
  | [] => []
  | (k2, v2) :: t => if k = k2 then t else (k2, v2) :: alErase k t

/-- `NewK8sStore`: fresh empty cache, a freshly created scratch file
(inode 0) held open as `currentFile`, zero `lastFullDump`, and
`firstWrite` set.  The destination path does not exist yet. -/
def mkStore (R : Type) (header : String) (T : Int) : K8sStore R × FS :=
  (⟨[], header, 0, true, 0, T, true⟩, ⟨[[]], some 0, none⟩)

/-- Injected outcomes for the I/O the append path performs. -/
structure AppendEnv where
  headerWriteOk : Bool
  renameOk : Bool
  writeOk : Bool
deriving DecidableEq

/-- Result of `AppendNewObject` (`nil`, or which step errored). -/
inductive AppendResult where
  | ok
  | renameError
  | writeError
deriving DecidableEq

/-- All append I/O succeeds. -/
def okAppendEnv : AppendEnv := ⟨true, true, true⟩

/-- `AppendNewObject`: on `firstWrite`, write the header to the open
handle (the returned error is discarded in the Go code), clear
`firstWrite`, and rename the scratch path onto the destination — the
rename fails when the scratch path does not exist, and its error is
returned before the record is written.  Otherwise (and after a
successful bootstrap) append the record's rendered line to the current
handle. -/
def appendNewObject {P R : Type} (A : Adapter P R) (st : K8sStore R) (fs : FS)
    (r : R) (e : AppendEnv) : K8sStore R × FS × AppendResult :=
  if st.firstWrite then
    let fs1 := if st.currentOpen && e.headerWriteOk then writeLine fs st.currentFile st.header else fs
    let st1 := { st with firstWrite := false }
    match fs1.temp with
    | none => (st1, fs1, AppendResult.renameError)
    | some i =>
      if e.renameOk then
        let fs2 : FS := { inodes := fs1.inodes, temp := none, dest := some i }
        if st1.currentOpen && e.writeOk then
          (st1, writeLine fs2 st1.currentFile (A.render r), AppendResult.ok)
        else (st1, fs2, AppendResult.writeError)
      else (st1, fs1, AppendResult.renameError)
  else
    if st.currentOpen && e.writeOk then
      (st, writeLine fs st.currentFile (A.render r), AppendResult.ok)
    else (st, fs, AppendResult.writeError)

/-- Injected outcomes for the I/O of a full dump: scratch-file creation,
record writes (the index of the failing write, if any), flush, sync and
rename. -/
structure DumpEnv where
  createOk : Bool
  writeFailAt : Option Nat
  flushOk : Bool
  syncOk : Bool
  renameOk : Bool
deriving DecidableEq

/-- Result of `DumpFullState`: throttled skip, success, a wrapped error,
or a panic (the nil-handle dereference in the logging call after a
failed `os.Create`). -/
inductive DumpResult where
  | skipped
  | ok
  | ioError
  | panicked
deriving DecidableEq

/-- All dump I/O succeeds. -/
def okDumpEnv : DumpEnv := ⟨true, none, true, true, true⟩

/-- Which record lines get written before a possible write failure. -/
def writeRecords (lines : List String) (failAt : Option Nat) : List String × Bool :=
  match failAt with
  | none => (lines, true)
  | some n => if n < lines.length then (lines.take n, false) else (lines, true)

/-- `DumpFullState`: skip when less than `TimeBetweenFullDump` has
passed since `lastFullDump`; otherwise record `now` as `lastFullDump`
first, create a fresh scratch inode (`os.Create`; on failure the Go
code dereferences the nil handle inside a `glog` argument and panics),
write header and every record, flush, sync, close the old handle,
rename scratch onto destination, and install the scratch handle as the
new current handle.  Any step failing after creation returns a wrapped
error with the destination untouched.  `firstWrite` is not changed. -/
def dumpFullState {P R : Type} (A : Adapter P R) (st : K8sStore R) (fs : FS)
    (now : Int) (e : DumpEnv) : K8sStore R × FS × DumpResult :=
  if now - st.lastFullDump < st.timeBetweenFullDump then
    (st, fs, DumpResult.skipped)
  else
    let st1 := { st with lastFullDump := now }
    if e.createOk then
      let idx := fs.inodes.length
      let wr := writeRecords (st1.data.map (fun kv => A.render kv.2)) e.writeFailAt
      let fs1 : FS := { inodes := fs.inodes ++ [st1.header :: wr.1], temp := some idx, dest := fs.dest }
      if wr.2 then
        if e.flushOk then
          if e.syncOk then
            let st2 := { st1 with currentOpen := false }
            if e.renameOk then
              ({ st2 with currentFile := idx, currentOpen := true },
               { inodes := fs1.inodes, temp := none, dest := some idx },
               DumpResult.ok)
            else (st2, fs1, DumpResult.ioError)
          else (st1, fs1, DumpResult.ioError)
        else (st1, fs1, DumpResult.ioError)
      else (st1, fs1, DumpResult.ioError)
    else (st1, fs, DumpResult.panicked)

/-- `AddResourceList`: rebuild the map from the list, then request a
full dump (the error is only logged). -/
def addResourceList {P R : Type} (A : Adapter P R) (st : K8sStore R) (fs : FS)
    (objs : List (RawObj P)) (now : Int) (e : DumpEnv) : K8sStore R × FS × DumpResult :=
  let d := objs.foldl (fun m o => alInsert (resourceKey o) (A.fromRaw o) m) []
  dumpFullState A { st with data := d } fs now e

/-- `AddResource`: install the new record in the map, then append it to
the current file (the error is only logged). -/
def addResource {P R : Type} (A : Adapter P R) (st : K8sStore R) (fs : FS)
    (obj : RawObj P) (e : AppendEnv) : K8sStore R × FS × AppendResult :=
  let r := A.fromRaw obj
  appendNewObject A { st with data := alInsert (resourceKey obj) r st.data } fs r e

/-- The argument of `DeleteResource`: the Go type switch distinguishes
`cache.DeletedFinalStateUnknown`, a `metav1.ObjectMetaAccessor`, and
everything else (which leaves the key at its `"Unknown"` default). -/
inductive DeleteArg (P : Type) where
  | finalStateUnknown (o : RawObj P)
  | metaAccessor (o : RawObj P)
  | unknownType
deriving DecidableEq

/-- The key `DeleteResource` resolves for its argument. -/
def deleteKey {P : Type} : DeleteArg P → String
  | DeleteArg.finalStateUnknown o => resourceKey o
  | DeleteArg.metaAccessor o => resourceKey o
  | DeleteArg.unknownType => "Unknown"

/-- `DeleteResource`: resolve the key (logging for an unknown type),
remove it from the map, and request a full dump unconditionally. -/
def deleteResource {P R : Type} (A : Adapter P R) (st : K8sStore R) (fs : FS)
    (arg : DeleteArg P) (now : Int) (e : DumpEnv) : K8sStore R × FS × DumpResult :=
  dumpFullState A { st with data := alErase (deleteKey arg) st.data } fs now e

/-- `UpdateResource`: build the candidate record for the new object,
compare it with the existing entry via `HasChanged`; on change replace
the entry and request a full dump, otherwise do nothing (`none`). -/
def updateResource {P R : Type} (A : Adapter P R) (st : K8sStore R) (fs : FS)
    (_oldObj newObj : RawObj P) (now : Int) (e : DumpEnv) :
    K8sStore R × FS × Option DumpResult :=
  let key := resourceKey newObj
  let r := A.fromRaw newObj
  if A.hasChanged r (alLookup key st.data) then
    let res := dumpFullState A { st with data := alInsert key r st.data } fs now e
    (res.1, res.2.1, some res.2.2)
  else (st, fs, none)

/-- The destination path, when it exists, is bound to an actual inode.
Every filesystem the store produces satisfies this. -/
def destValid (fs : FS) : Bool :=
  match fs.dest with
  | none => true
  | some i => i < fs.inodes.length

/-- One public mutation of a store, as the event source delivers them:
a list resync, an add, a delete, or an update, at arbitrary times and
with arbitrary injected I/O outcomes. -/
inductive Step {P R : Type} (A : Adapter P R) : K8sStore R × FS → K8sStore R × FS → Prop where
  | list (s : K8sStore R × FS) (objs : List (RawObj P)) (now : Int) (e : DumpEnv) :
      Step A s ((addResourceList A s.1 s.2 objs now e).1, (addResourceList A s.1 s.2 objs now e).2.1)
  | add (s : K8sStore R × FS) (obj : RawObj P) (e : AppendEnv) :
      Step A s ((addResource A s.1 s.2 obj e).1, (addResource A s.1 s.2 obj e).2.1)
  | del (s : K8sStore R × FS) (arg : DeleteArg P) (now : Int) (e : DumpEnv) :
      Step A s ((deleteResource A s.1 s.2 arg now e).1, (deleteResource A s.1 s.2 arg now e).2.1)
  | upd (s : K8sStore R × FS) (o1 o2 : RawObj P) (now : Int) (e : DumpEnv) :
      Step A s ((updateResource A s.1 s.2 o1 o2 now e).1, (updateResource A s.1 s.2 o1 o2 now e).2.1)

/-- States reachable from a fresh store by a finite sequence of public
mutations. -/
def Reachable {P R : Type} (A : Adapter P R) (header : String) (T : Int)
    (s : K8sStore R × FS) : Prop :=
  Relation.ReflTransGen (Step A) (mkStore R header T) s

/-! ### A concrete adapter and scenario, used for concrete evaluations -/

/-- A concrete adapter over payload-free raw objects: the record is the
raw object itself, rendered as `namespace name`, and every update
counts as a change (as `Node.HasChanged` in the source does). -/
def demoA : Adapter Unit (RawObj Unit) :=
  ⟨id, fun o => o.ns ++ " " ++ o.name, fun _ _ => true⟩

/-- Raw object with namespace `a`, name `x`. -/
def ox : RawObj Unit := ⟨"a", "x", ()⟩

/-- Raw object with namespace `a`, name `y`. -/
def oy : RawObj Unit := ⟨"a", "y", ()⟩

/-- A fresh store (header line `H`, throttle interval 10). -/
def s0 : K8sStore (RawObj Unit) × FS := mkStore (RawObj Unit) "H" 10

/-- Scenario step: `list([x])` at time 100 — populates the cache and
performs the initial full dump. -/
def c1s1 : K8sStore (RawObj Unit) × FS × DumpResult :=
  addResourceList demoA s0.1 s0.2 [ox] 100 okDumpEnv

/-- Scenario step: `add(y)` right after the initial dump — takes the
incremental-append path. -/
def c1s2 : K8sStore (RawObj Unit) × FS × AppendResult :=
  addResource demoA c1s1.1 c1s1.2.1 oy okAppendEnv

/-- Scenario for the unknown-identity delete: `list([x, y])` at 100. -/
def c6s1 : K8sStore (RawObj Unit) × FS × DumpResult :=
  addResourceList demoA s0.1 s0.2 [ox, oy] 100 okDumpEnv

/-- Scenario step: `delete(y)` at 105, inside the throttle window, so
the dump is skipped and the on-disk file stays stale. -/
def c6s2 : K8sStore (RawObj Unit) × FS × DumpResult :=
  deleteResource demoA c6s1.1 c6s1.2.1 (DeleteArg.metaAccessor oy) 105 okDumpEnv

/-- Scenario step: a delete whose argument resolves to no known type,
at 200, outside the throttle window. -/
def c6s3 : K8sStore (RawObj Unit) × FS × DumpResult :=
  deleteResource demoA c6s2.1 c6s2.2.1 DeleteArg.unknownType 200 okDumpEnv

/-! ### Helper lemmas -/

section Helpers

variable {P R : Type} (A : Adapter P R)

theorem alInsert_keys_mem {k x : String} {v : R} {l : List (String × R)} :
    x ∈ (alInsert k v l).map Prod.fst ↔ x = k ∨ x ∈ l.map Prod.fst := by
  induction l with
  | nil => simp [alInsert]
  | cons a t ih =>
    obtain ⟨k2, v2⟩ := a
    by_cases h : k = k2
    · subst h
      simp [alInsert]
    · simp only [alInsert, if_neg h, List.map_cons, List.mem_cons, ih]
      tauto

theorem alInsert_keys_nodup {k : String} {v : R} {l : List (String × R)}
    (h : (l.map Prod.fst).Nodup) : ((alInsert k v l).map Prod.fst).Nodup := by
  induction l with
  | nil => simp [alInsert]
  | cons a t ih =>
    obtain ⟨k2, v2⟩ := a
    simp only [List.map_cons, List.nodup_cons] at h
    by_cases hk : k = k2
    · subst hk
      simpa [alInsert] using h
    · simp only [alInsert, if_neg hk, List.map_cons, List.nodup_cons]
      refine ⟨fun hm => ?_, ih h.2⟩
      rcases alInsert_keys_mem.1 hm with h1 | h1
      · exact hk (h1.symm)
      · exact h.1 h1

theorem alErase_sublist (k : String) (l : List (String × R)) :
    (alErase k l).Sublist l := by
  induction l with
  | nil => simp [alErase]
  | cons a t ih =>
    obtain ⟨k2, v2⟩ := a
    by_cases h : k = k2
    · simp only [alErase, if_pos h]
      exact List.sublist_cons_self (k2, v2) t
    · simp only [alErase, if_neg h]
      exact List.Sublist.cons₂ (k2, v2) ih

theorem alErase_keys_nodup {k : String} {l : List (String × R)}
    (h : (l.map Prod.fst).Nodup) : ((alErase k l).map Prod.fst).Nodup :=
  ((alErase_sublist k l).map Prod.fst).nodup h

theorem alErase_eq_of_lookup_none {k : String} {l : List (String × R)}
    (h : alLookup k l = none) : alErase k l = l := by
  induction l with
  | nil => rfl
  | cons a t ih =>
    obtain ⟨k2, v2⟩ := a
    by_cases hk : k = k2
    · simp [alLookup, hk] at h
    · simp only [alLookup, if_neg hk] at h
      simp [alErase, hk, ih h]

theorem foldl_alInsert_keys_nodup (objs : List (RawObj P)) (acc : List (String × R))
    (h : (acc.map Prod.fst).Nodup) :
    ((objs.foldl (fun m o => alInsert (resourceKey o) (A.fromRaw o) m) acc).map Prod.fst).Nodup := by
  induction objs generalizing acc with
  | nil => simpa using h
  | cons o t ih => exact ih _ (alInsert_keys_nodup h)

theorem append_data (st : K8sStore R) (fs : FS) (r : R) (e : AppendEnv) :
    (appendNewObject A st fs r e).1.data = st.data := by
  unfold appendNewObject
  dsimp only
  repeat' split
  all_goals rfl

theorem dump_data (st : K8sStore R) (fs : FS) (now : Int) (e : DumpEnv) :
    (dumpFullState A st fs now e).1.data = st.data := by
  unfold dumpFullState
  dsimp only
  repeat' split
  all_goals rfl

theorem dump_skip {st : K8sStore R} {now : Int} (fs : FS) (e : DumpEnv)
    (h : now - st.lastFullDump < st.timeBetweenFullDump) :
    dumpFullState A st fs now e = (st, fs, DumpResult.skipped) := by
  unfold dumpFullState
  rw [if_pos h]

theorem dump_allOk {st : K8sStore R} {now : Int} (fs : FS)
    (ht : st.timeBetweenFullDump ≤ now - st.lastFullDump) :
    dumpFullState A st fs now okDumpEnv =
      ({ st with lastFullDump := now, currentFile := fs.inodes.length, currentOpen := true },
       ⟨fs.inodes ++ [st.header :: st.data.map (fun kv => A.render kv.2)], none,
        some fs.inodes.length⟩,
       DumpResult.ok) := by
  unfold dumpFullState
  rw [if_neg (not_lt.mpr ht)]
  simp [okDumpEnv, writeRecords]

theorem dump_performed {st : K8sStore R} {now : Int} (fs : FS) (e : DumpEnv)
    (ht : st.timeBetweenFullDump ≤ now - st.lastFullDump) :
    (dumpFullState A st fs now e).1.lastFullDump = now ∧
    (dumpFullState A st fs now e).1.timeBetweenFullDump = st.timeBetweenFullDump ∧
    (dumpFullState A st fs now e).2.2 ≠ DumpResult.skipped := by
  unfold dumpFullState
  rw [if_neg (not_lt.mpr ht)]
  dsimp only
  repeat' split
  all_goals simp

theorem addResourceList_data (st : K8sStore R) (fs : FS) (objs : List (RawObj P))
    (now : Int) (e : DumpEnv) :
    (addResourceList A st fs objs now e).1.data =
      objs.foldl (fun m o => alInsert (resourceKey o) (A.fromRaw o) m) [] := by
  unfold addResourceList
  rw [dump_data]

theorem addResource_data (st : K8sStore R) (fs : FS) (obj : RawObj P) (e : AppendEnv) :
    (addResource A st fs obj e).1.data =
      alInsert (resourceKey obj) (A.fromRaw obj) st.data := by
  unfold addResource
  rw [append_data]

theorem deleteResource_data (st : K8sStore R) (fs : FS) (arg : DeleteArg P)
    (now : Int) (e : DumpEnv) :
    (deleteResource A st fs arg now e).1.data = alErase (deleteKey arg) st.data := by
  unfold deleteResource
  rw [dump_data]

theorem updateResource_data (st : K8sStore R) (fs : FS) (o1 o2 : RawObj P)
    (now : Int) (e : DumpEnv) :
    (updateResource A st fs o1 o2 now e).1.data = st.data ∨
    (updateResource A st fs o1 o2 now e).1.data =
      alInsert (resourceKey o2) (A.fromRaw o2) st.data := by
  unfold updateResource
  dsimp only
  split
  · right
    rw [dump_data]
  · left
    rfl

theorem reachable_keys_nodup {header : String} {T : Int} {s : K8sStore R × FS}
    (h : Reachable A header T s) : (s.1.data.map Prod.fst).Nodup := by
  induction h with
  | refl => simp [mkStore]
  | @tail b c _ step ih =>
    cases step with
    | list objs now e =>
      dsimp only
      rw [addResourceList_data]
      exact foldl_alInsert_keys_nodup A objs [] (by simp)
    | add obj e =>
      dsimp only
      rw [addResource_data]
      exact alInsert_keys_nodup ih
    | del arg now e =>
      dsimp only
      rw [deleteResource_data]
      exact alErase_keys_nodup ih
    | upd o1 o2 now e =>
      dsimp only
      rcases updateResource_data A b.1 b.2 o1 o2 now e with hd | hd <;> rw [hd]
      · exact ih
      · exact alInsert_keys_nodup ih

theorem getElem?_append_len {α : Type} (l : List α) (a : α) :
    (l ++ [a])[l.length]? = some a := by
  induction l with
  | nil => rfl
  | cons x t ih =>
    simp only [List.cons_append, List.length_cons, List.getElem?_cons_succ]
    exact ih

theorem dump_ok_or_dest_preserved (st : K8sStore R) (fs : FS) (now : Int) (e : DumpEnv)
    (hd : ∀ i, fs.dest = some i → i < fs.inodes.length) :
    (dumpFullState A st fs now e).2.2 = DumpResult.ok ∨
    destContent (dumpFullState A st fs now e).2.1 = destContent fs := by
  have hkeep : ∀ ls : List String,
      destContent ⟨fs.inodes ++ [ls], some fs.inodes.length, fs.dest⟩ = destContent fs := by
    intro ls
    unfold destContent
    cases hfs : fs.dest with
    | none => rfl
    | some i =>
      dsimp only
      rw [List.getElem?_append, if_pos (hd i hfs)]
  unfold dumpFullState
  dsimp only
  repeat' split
  all_goals simp [hkeep]

theorem dump_create_fail {st : K8sStore R} {now : Int} {e : DumpEnv} (fs : FS)
    (ht : st.timeBetweenFullDump ≤ now - st.lastFullDump) (hc : e.createOk = false) :
    dumpFullState A st fs now e =
      ({ st with lastFullDump := now }, fs, DumpResult.panicked) := by
  unfold dumpFullState
  rw [if_neg (not_lt.mpr ht)]
  dsimp only
  rw [hc]
  simp

theorem resourceKey_ne_unknown (o : RawObj P) : resourceKey o ≠ "Unknown" := by
  intro h
  have hm : '_' ∈ (resourceKey o).data := by
    show '_' ∈ (o.ns ++ "_" ++ o.name).data
    have : (o.ns ++ "_" ++ o.name).data = o.ns.data ++ ('_' :: o.name.data) := by
      simp [String.data_append]
    rw [this]
    exact List.mem_append_right _ (List.mem_cons_self _ _)
  rw [h] at hm
  exact absurd hm (by decide)

theorem alLookup_none_of_unknown_notin {l : List (String × R)}
    (h : ∀ k ∈ l.map Prod.fst, k ≠ "Unknown") : alLookup "Unknown" l = none := by
  induction l with
  | nil => rfl
  | cons a t ih =>
    obtain ⟨k2, v2⟩ := a
    have hk : k2 ≠ "Unknown" := h k2 (by simp)
    simp only [alLookup, if_neg (fun hh : "Unknown" = k2 => hk hh.symm)]
    exact ih (fun k hk2 => h k (by simp [hk2]))

end Helpers

/-! ### Claim theorems -/

/-- C1: the claim states that after `list([x])` (which performs the
initial full dump) a subsequent `add(y)` appends exactly one rendered
line, leaving header plus two record lines.  The code disagrees:
`DumpFullState` never clears `firstWrite`, so the append bootstraps
again — it appends a second copy of the header to the destination file
and then fails renaming the scratch path (which the dump already
renamed away), never writing y's record.  The destination ends as
header, record x, header. -/
theorem appendAfterFullDump_duplicatesHeader :
    destContent c1s1.2.1 = some ["H", "a x"] ∧
    c1s1.1.firstWrite = true ∧
    destContent c1s2.2.1 = some ["H", "a x", "H"] ∧
    c1s2.2.2 = AppendResult.renameError := by decide

/-- C2: for the write/flush/sync/rename steps of a full rewrite, a
failure leaves the destination content exactly as before (only the
rename replaces it); but when creating the scratch file fails the code
does not return a wrapped error — it dereferences the nil file handle
inside a logging-call argument and panics (with the filesystem
untouched and the timestamp already advanced). -/
theorem dumpFullState_failure_handling {P R : Type} (A : Adapter P R)
    (st : K8sStore R) (fs : FS) (now : Int) (e : DumpEnv)
    (hv : destValid fs = true)
    (ht : st.timeBetweenFullDump ≤ now - st.lastFullDump) :
    ((dumpFullState A st fs now e).2.2 = DumpResult.ioError →
      destContent (dumpFullState A st fs now e).2.1 = destContent fs) ∧
    (e.createOk = false →
      dumpFullState A st fs now e =
        ({ st with lastFullDump := now }, fs, DumpResult.panicked)) := by
  have hd : ∀ i, fs.dest = some i → i < fs.inodes.length := by
    intro i hi
    unfold destValid at hv
    rw [hi] at hv
    exact of_decide_eq_true hv
  refine ⟨fun herr => ?_, fun hc => dump_create_fail A fs ht hc⟩
  rcases dump_ok_or_dest_preserved A st fs now e hd with hok | hpres
  · rw [herr] at hok
    exact absurd hok (by decide)
  · exact hpres

/-- Witness for C2 at a concrete input: a flush failure during the
rewrite after `list([x, y])` leaves the destination file untouched. -/
theorem dumpFullState_failure_handling_witness :
    destContent (dumpFullState demoA c6s1.1 c6s1.2.1 200 ⟨true, none, false, true, true⟩).2.1 =
      destContent c6s1.2.1 :=
  (dumpFullState_failure_handling demoA c6s1.1 c6s1.2.1 200 ⟨true, none, false, true, true⟩
    (by decide) (by decide)).1 (by decide)

/-- C3: with throttle interval T, a dump performed at `now1` (at least
T after the last one) succeeds and records `now1`; any second request
less than T later is skipped without touching the store or the
filesystem; and any request at least T after the recorded rewrite is
not skipped. -/
theorem dumpFullState_throttle_correct {P R : Type} (A : Adapter P R)
    (st : K8sStore R) (fs : FS) (now1 now2 : Int)
    (h1 : st.timeBetweenFullDump ≤ now1 - st.lastFullDump)
    (h2 : now2 - now1 < st.timeBetweenFullDump) :
    (dumpFullState A st fs now1 okDumpEnv).2.2 = DumpResult.ok ∧
    (dumpFullState A st fs now1 okDumpEnv).1.lastFullDump = now1 ∧
    (∀ e2 : DumpEnv,
      dumpFullState A (dumpFullState A st fs now1 okDumpEnv).1
          (dumpFullState A st fs now1 okDumpEnv).2.1 now2 e2 =
        ((dumpFullState A st fs now1 okDumpEnv).1,
         (dumpFullState A st fs now1 okDumpEnv).2.1, DumpResult.skipped)) ∧
    (∀ now3 : Int, ∀ e3 : DumpEnv,
      st.timeBetweenFullDump ≤ now3 - (dumpFullState A st fs now1 okDumpEnv).1.lastFullDump →
      (dumpFullState A (dumpFullState A st fs now1 okDumpEnv).1
          (dumpFullState A st fs now1 okDumpEnv).2.1 now3 e3).2.2 ≠ DumpResult.skipped) := by
  rw [dump_allOk A fs h1]
  refine ⟨rfl, rfl, fun e2 => dump_skip A _ e2 h2, fun now3 e3 h3 => (dump_performed A _ e3 h3).2.2⟩

/-- Witness for C3 at a concrete input: dumps requested at 200 and 205
with interval 10 — the first succeeds. -/
theorem dumpFullState_throttle_correct_witness :
    (dumpFullState demoA c6s1.1 c6s1.2.1 200 okDumpEnv).2.2 = DumpResult.ok :=
  (dumpFullState_throttle_correct demoA c6s1.1 c6s1.2.1 200 205 (by decide) (by decide)).1

/-- C4: the claim states no public mutation panics on I/O failure,
in particular not `DumpFullState` when creating the scratch file fails.
The code does panic there: a delete (which always requests a full dump)
hits the nil-handle dereference when `os.Create` fails. -/
theorem deleteResource_panics_on_create_failure :
    (deleteResource demoA c6s1.1 c6s1.2.1 (DeleteArg.metaAccessor oy) 200
        ⟨false, none, true, true, true⟩).2.2 = DumpResult.panicked := by decide

/-- C5: in any state reachable by a finite sequence of public
mutations, a performed and successful full rewrite leaves the
destination file as the header followed by exactly one rendered line
per current cache entry — no duplicates (given that rendering does not
collide on the current entries) and no lines for identities no longer
in the cache. -/
theorem dumpFullState_converges_cache_file {P R : Type} (A : Adapter P R)
    (header : String) (T : Int) (s : K8sStore R × FS) (now : Int)
    (hreach : Reachable A header T s)
    (hinj : ∀ kv1 ∈ s.1.data, ∀ kv2 ∈ s.1.data,
      A.render kv1.2 = A.render kv2.2 → kv1 = kv2)
    (ht : s.1.timeBetweenFullDump ≤ now - s.1.lastFullDump) :
    (dumpFullState A s.1 s.2 now okDumpEnv).2.2 = DumpResult.ok ∧
    destContent (dumpFullState A s.1 s.2 now okDumpEnv).2.1 =
      some (s.1.header :: s.1.data.map (fun kv => A.render kv.2)) ∧
    (s.1.data.map (fun kv => A.render kv.2)).Nodup ∧
    (∀ l : String, l ∈ s.1.data.map (fun kv => A.render kv.2) ↔
      ∃ kv ∈ s.1.data, A.render kv.2 = l) := by
  rw [dump_allOk A s.2 ht]
  refine ⟨rfl, ?_, ?_, ?_⟩
  · unfold destContent
    dsimp only
    exact getElem?_append_len _ _
  · have hnd : s.1.data.Nodup := (reachable_keys_nodup A hreach).of_map _
    exact hnd.map_on hinj
  · intro l
    simp [List.mem_map]

/-- Witness for C5 at a concrete input: the state reached by
`list([x, y])`, dumped at 200. -/
theorem dumpFullState_converges_cache_file_witness :
    (dumpFullState demoA c6s1.1 c6s1.2.1 200 okDumpEnv).2.2 = DumpResult.ok ∧
    destContent (dumpFullState demoA c6s1.1 c6s1.2.1 200 okDumpEnv).2.1 =
      some ["H", "a x", "a y"] :=
  ⟨(dumpFullState_converges_cache_file demoA "H" 10 (c6s1.1, c6s1.2.1) 200
      (Relation.ReflTransGen.single
        (Step.list (mkStore (RawObj Unit) "H" 10) [ox, oy] 100 okDumpEnv))
      (by decide) (by decide)).1,
   (dumpFullState_converges_cache_file demoA "H" 10 (c6s1.1, c6s1.2.1) 200
      (Relation.ReflTransGen.single
        (Step.list (mkStore (RawObj Unit) "H" 10) [ox, oy] 100 okDumpEnv))
      (by decide) (by decide)).2.1⟩

/-- Counterexample to C6 as stated: a delete with an unresolvable
argument does trigger a write to disk.  After `list([x, y])`, a
throttled `delete(y)` leaves the file stale; a later unknown-identity
delete performs the pending full rewrite and the destination content
changes, while the cache is untouched. -/
theorem unknownDelete_triggers_disk_write :
    c6s3.1.data = c6s2.1.data ∧
    destContent c6s2.2.1 = some ["H", "a x", "a y"] ∧
    destContent c6s3.2.1 = some ["H", "a x"] := by decide

/-- C6 (amended): a delete whose argument resolves to no known type is
a no-op on the cache and returns no error, but it still requests a full
rewrite exactly as any other delete (performed or throttled by
`DumpFullState`). -/
theorem unknownDelete_noop_cache_still_dumps {P R : Type} (A : Adapter P R)
    (st : K8sStore R) (fs : FS) (now : Int) (e : DumpEnv)
    (h : ∀ k ∈ st.data.map Prod.fst, k ≠ "Unknown") :
    deleteResource A st fs DeleteArg.unknownType now e = dumpFullState A st fs now e ∧
    (deleteResource A st fs DeleteArg.unknownType now e).1.data = st.data := by
  have he : alErase "Unknown" st.data = st.data :=
    alErase_eq_of_lookup_none (alLookup_none_of_unknown_notin h)
  constructor
  · show dumpFullState A { st with data := alErase "Unknown" st.data } fs now e =
        dumpFullState A st fs now e
    rw [he]
  · rw [deleteResource_data]
    exact he

/-- Witness for C6 (amended) at a concrete input: the unknown-identity
delete of the counterexample scenario equals a plain dump request. -/
theorem unknownDelete_noop_cache_still_dumps_witness :
    deleteResource demoA c6s2.1 c6s2.2.1 DeleteArg.unknownType 200 okDumpEnv =
      dumpFullState demoA c6s2.1 c6s2.2.1 200 okDumpEnv :=
  (unknownDelete_noop_cache_still_dumps demoA c6s2.1 c6s2.2.1 200 okDumpEnv (by decide)).1

/-- C7: an update on an identity present in the cache builds the
candidate record and applies the change predicate against the existing
entry; if unchanged, the store and the filesystem are left exactly as
they were (no I/O); if changed, the entry is replaced and a full
rewrite is requested. -/
theorem updateResource_change_predicate {P R : Type} (A : Adapter P R)
    (st : K8sStore R) (fs : FS) (o1 o2 : RawObj P) (now : Int) (e : DumpEnv) (r0 : R)
    (hk : alLookup (resourceKey o2) st.data = some r0) :
    (A.hasChanged (A.fromRaw o2) (some r0) = false →
      updateResource A st fs o1 o2 now e = (st, fs, none)) ∧
    (A.hasChanged (A.fromRaw o2) (some r0) = true →
      updateResource A st fs o1 o2 now e =
        ((dumpFullState A
            { st with data := alInsert (resourceKey o2) (A.fromRaw o2) st.data } fs now e).1,
         (dumpFullState A
            { st with data := alInsert (resourceKey o2) (A.fromRaw o2) st.data } fs now e).2.1,
         some (dumpFullState A
            { st with data := alInsert (resourceKey o2) (A.fromRaw o2) st.data } fs now e).2.2)) := by
  constructor
  · intro hf
    unfold updateResource
    dsimp only
    rw [hk, hf]
    simp
  · intro htr
    unfold updateResource
    dsimp only
    rw [hk, htr]
    simp

/-- Witness for C7 at a concrete input: updating y (whose adapter
always reports changed) after `list([x, y])`. -/
theorem updateResource_change_predicate_witness :
    updateResource demoA c6s1.1 c6s1.2.1 ox oy 200 okDumpEnv =
      ((dumpFullState demoA
          { c6s1.1 with data := alInsert (resourceKey oy) (demoA.fromRaw oy) c6s1.1.data }
          c6s1.2.1 200 okDumpEnv).1,
       (dumpFullState demoA
          { c6s1.1 with data := alInsert (resourceKey oy) (demoA.fromRaw oy) c6s1.1.data }
          c6s1.2.1 200 okDumpEnv).2.1,
       some (dumpFullState demoA
          { c6s1.1 with data := alInsert (resourceKey oy) (demoA.fromRaw oy) c6s1.1.data }
          c6s1.2.1 200 okDumpEnv).2.2) :=
  (updateResource_change_predicate demoA c6s1.1 c6s1.2.1 ox oy 200 okDumpEnv oy
    (by decide)).2 (by decide)

/-- C8: the append path never touches the cache mapping — whatever the
injected I/O outcome, `AppendNewObject` returns the map unchanged, and
`AddResource` installs the new record before appending, so a failed
append leaves exactly the map with the record installed. -/
theorem append_failure_preserves_cache {P R : Type} (A : Adapter P R)
    (st : K8sStore R) (fs : FS) (r : R) (e : AppendEnv) (obj : RawObj P) :
    (appendNewObject A st fs r e).1.data = st.data ∧
    (addResource A st fs obj e).1.data =
      alInsert (resourceKey obj) (A.fromRaw obj) st.data :=
  ⟨append_data A st fs r e, addResource_data A st fs obj e⟩

/-- C9: `resourceKey` just joins namespace and name with an underscore,
so the distinct pairs (a, b_c) and (a_b, c) collide on the identity
string a_b_c. -/
theorem resourceKey_not_injective :
    resourceKey (⟨"a", "b_c", ()⟩ : RawObj Unit) =
      resourceKey (⟨"a_b", "c", ()⟩ : RawObj Unit) ∧
    (⟨"a", "b_c", ()⟩ : RawObj Unit) ≠ (⟨"a_b", "c", ()⟩ : RawObj Unit) := by decide

/-- C10: `DumpFullState` records `now` as `lastFullDump` before any
file I/O, so when the rewrite then fails, the timestamp is advanced
anyway and every further request within the throttle interval is
skipped although no successful write happened. -/
theorem dumpFullState_advances_timestamp_on_failure {P R : Type} (A : Adapter P R)
    (st : K8sStore R) (fs : FS) (now : Int) (e : DumpEnv)
    (ht : st.timeBetweenFullDump ≤ now - st.lastFullDump)
    (_hfail : (dumpFullState A st fs now e).2.2 ≠ DumpResult.ok) :
    (dumpFullState A st fs now e).1.lastFullDump = now ∧
    (∀ now2 : Int, ∀ e2 : DumpEnv, now2 - now < st.timeBetweenFullDump →
      dumpFullState A (dumpFullState A st fs now e).1
          (dumpFullState A st fs now e).2.1 now2 e2 =
        ((dumpFullState A st fs now e).1,
         (dumpFullState A st fs now e).2.1, DumpResult.skipped)) := by
  obtain ⟨hl, hT, _⟩ := dump_performed A fs e ht
  refine ⟨hl, fun now2 e2 h2 => dump_skip A _ e2 ?_⟩
  rw [hl, hT]
  exact h2

/-- Witness for C10 at a concrete input: a flush failure at 200 still
advances the timestamp to 200. -/
theorem dumpFullState_advances_timestamp_on_failure_witness :
    (dumpFullState demoA c6s1.1 c6s1.2.1 200 ⟨true, none, false, true, true⟩).1.lastFullDump =
      200 :=
  (dumpFullState_advances_timestamp_on_failure demoA c6s1.1 c6s1.2.1 200
    ⟨true, none, false, true, true⟩ (by decide) (by decide)).1

end KubectlFzf
